import Mathlib

/-!
Verification of the Gold SIP calculator core (`gold_sip_calculator.py`).

The engine is embedded shallowly over exact rationals:

* Python `float` values become `ℚ`; Python `int` becomes `ℤ`.
* Python `round(x, nd)` (round-half-to-even) becomes `pyRound x nd`,
  defined exactly on rationals.
* Fallible Python arithmetic (`ZeroDivisionError`, `IndexError`, and the
  `TypeError` raised by `round` on the complex number that `**` returns for
  a negative base with a fractional exponent) is made explicit with an
  `Except CalcError` result channel.
* The `start_date` / `end_date` fields (calendar bookkeeping on
  `datetime.date`) are omitted: no verified property refers to them.
* The `cagr` field (line 57 of the source) is the value of a fractional
  real power, which is irrational in general and hence not representable
  in this rational embedding; no verified property refers to its value.
  Its domain side conditions (divisors nonzero, positive base, the
  `years == 0` fallback branch) are stated and proved separately over the
  named intermediate quantities `years_calc` and `current_value_calc`,
  and its failure path — `round(cagr, 2)` at line 71 raising `TypeError`
  when the base `current_value / total_investment` is negative and the
  exponent `1/years` fractional, so that `**` yields a complex number —
  is modelled explicitly.  Over exact rationals the exponent
  `1/years = 12/duration_months` is an integer exactly when
  `duration_months` divides 12 (the float computation of `1/years` can
  perturb this integrality for some divisors of 12; no verified property
  depends on that corner).
-/

namespace GoldSip

/-- Python `round` to the nearest integer, exact over `ℚ`: round half to even. -/
def pyRoundInt (q : ℚ) : ℤ :=
  if q - ⌊q⌋ < 1/2 then ⌊q⌋
  else if 1/2 < q - ⌊q⌋ then ⌊q⌋ + 1
  else if ⌊q⌋ % 2 = 0 then ⌊q⌋ else ⌊q⌋ + 1

/-- Python `round(x, nd)` for `nd ≥ 0`, exact over `ℚ`. -/
def pyRound (q : ℚ) (nd : ℕ) : ℚ :=
  (pyRoundInt (q * 10 ^ nd) : ℚ) / 10 ^ nd

/-- Errors the embedded engine can raise, mirroring the Python exceptions
reachable in the translated code paths. -/
inductive CalcError where
  | zeroDivision
  | indexError
  | typeError
deriving DecidableEq

/-- The dictionary returned by `calculate_sip_returns` (lines 61-74),
minus `start_date`/`end_date` and `cagr` (see the module docstring). -/
structure SipResult where
  monthly_amount : ℚ
  duration_months : ℤ
  total_investment : ℚ
  average_gold_price : ℚ
  current_gold_price : ℚ
  total_grams : ℚ
  current_value : ℚ
  profit_loss : ℚ
  profit_loss_percentage : ℚ
deriving DecidableEq

instance {ε α : Type} [DecidableEq ε] [DecidableEq α] : DecidableEq (Except ε α) := fun a b =>
  match a, b with
  | .error e, .error f =>
      if h : e = f then .isTrue (by rw [h]) else .isFalse (by intro hc; cases hc; exact h rfl)
  | .error _, .ok _ => .isFalse (by intro hc; cases hc)
  | .ok _, .error _ => .isFalse (by intro hc; cases hc)
  | .ok x, .ok y =>
      if h : x = y then .isTrue (by rw [h]) else .isFalse (by intro hc; cases hc; exact h rfl)

/-- Line 42: `total_investment = monthly_amount * duration_months`. -/
def total_investment_calc (monthly_amount : ℚ) (duration_months : ℤ) : ℚ :=
  monthly_amount * duration_months

/-- Line 45: `total_grams = monthly_amount / average_gold_price * duration_months`. -/
def total_grams_calc (monthly_amount average_gold_price : ℚ) (duration_months : ℤ) : ℚ :=
  monthly_amount / average_gold_price * duration_months

/-- Line 48: `current_value = total_grams * current_gold_price`. -/
def current_value_calc (monthly_amount average_gold_price current_gold_price : ℚ)
    (duration_months : ℤ) : ℚ :=
  total_grams_calc monthly_amount average_gold_price duration_months * current_gold_price

/-- Line 55: `years = duration_months / 12` (true division). -/
def years_calc (duration_months : ℤ) : ℚ :=
  (duration_months : ℚ) / 12

/-- Embedding of `GoldSIPCalculator.calculate_sip_returns` (lines 19-74).  The function
performs no input validation; its failures are the divisions by zero at
line 45 (`average_gold_price = 0`) and at line 52 (`total_investment = 0`),
raised in that order, and the `TypeError` of line 71: when `years > 0` and
the CAGR base `current_value / total_investment` is negative with a
fractional exponent `1/years`, the `**` of line 57 returns a complex number
and `round(cagr, 2)` raises while the result dictionary is being built.
Over exact rationals the exponent `1/years = 12/duration_months` is an
integer exactly when `duration_months` divides 12. -/
def calculate_sip_returns (monthly_amount : ℚ) (duration_months : ℤ)
    (average_gold_price current_gold_price : ℚ) : Except CalcError SipResult :=
  let total_investment := total_investment_calc monthly_amount duration_months
  if average_gold_price = 0 then .error .zeroDivision
  else
    let total_grams := total_grams_calc monthly_amount average_gold_price duration_months
    let current_value := total_grams * current_gold_price
    let profit_loss := current_value - total_investment
    if total_investment = 0 then .error .zeroDivision
    else
      let profit_loss_percentage := profit_loss / total_investment * 100
      if 0 < years_calc duration_months ∧ current_value / total_investment < 0 ∧
          ¬ (duration_months ∣ 12) then .error .typeError
      else
        .ok ⟨monthly_amount, duration_months, total_investment, average_gold_price,
             current_gold_price, pyRound total_grams 3, pyRound current_value 2,
             pyRound profit_loss 2, pyRound profit_loss_percentage 2⟩

/-- The failure path of line 71 at the witnessing input: with
`current_gold_price = -10500` the CAGR base is `-1.3125` and the exponent
`1/years = 1/2` is fractional, so Python raises `TypeError` (the embedded
operation returns the `typeError` error). -/
theorem calculate_sip_returns_typeError :
    calculate_sip_returns 100 24 8000 (-10500) = .error .typeError := by
  norm_num [calculate_sip_returns, total_investment_calc, total_grams_calc,
    years_calc, pyRound, pyRoundInt]

theorem floor_le_pyRoundInt (q : ℚ) : ⌊q⌋ ≤ pyRoundInt q := by
  unfold pyRoundInt; split_ifs <;> omega

theorem pyRoundInt_le_floor_add_one (q : ℚ) : pyRoundInt q ≤ ⌊q⌋ + 1 := by
  unfold pyRoundInt; split_ifs <;> omega

theorem pyRoundInt_mono {q q' : ℚ} (h : q ≤ q') : pyRoundInt q ≤ pyRoundInt q' := by
  have hf : ⌊q⌋ ≤ ⌊q'⌋ := Int.floor_le_floor h
  rcases eq_or_lt_of_le hf with heq | hlt
  · have hff : q - (⌊q'⌋ : ℚ) ≤ q' - (⌊q'⌋ : ℚ) := by
      rw [← heq]; linarith
    unfold pyRoundInt
    rw [heq]
    split_ifs <;> first | omega | linarith
  · have b1 := pyRoundInt_le_floor_add_one q
    have b2 := floor_le_pyRoundInt q'
    omega

theorem pyRound_mono {q q' : ℚ} (nd : ℕ) (h : q ≤ q') : pyRound q nd ≤ pyRound q' nd := by
  unfold pyRound
  have hp : (0 : ℚ) < 10 ^ nd := by positivity
  refine (div_le_div_iff_of_pos_right hp).mpr ?_
  exact_mod_cast pyRoundInt_mono (mul_le_mul_of_nonneg_right h hp.le)

/-- The synthesized default price series (lines 96-100):
`[base_price * (1 + 0.01 * i) for i in range(duration_months)]` with
`base_price = 7500`. -/
def defaultGoldPrices (duration_months : ℕ) : List ℚ :=
  (List.range duration_months).map (fun i : ℕ => 7500 * (1 + 1/100 * (i : ℚ)))

/-- Line 108: `gold_prices[month] if month < len(gold_prices) else gold_prices[-1]`.
`none` corresponds to the `IndexError` that `gold_prices[-1]` raises on an
empty list. -/
def priceForMonth (gold_prices : List ℚ) (month : ℕ) : Option ℚ :=
  if month < gold_prices.length then gold_prices[month]? else gold_prices.getLast?

/-- Line 96: `if not gold_prices:` — Python truthiness makes both an omitted
(`None`) and an empty list fall back to the synthesized default series. -/
def effectivePrices (gold_prices : Option (List ℚ)) (duration_months : ℕ) : List ℚ :=
  match gold_prices with
  | none => defaultGoldPrices duration_months
  | some [] => defaultGoldPrices duration_months
  | some ps => ps

/-- One entry of the list returned by `calculate_monthly_breakdown`
(lines 115-123), minus the `date` field (calendar bookkeeping, unclaimed). -/
structure MonthlyRecord where
  month : ℕ
  investment_amount : ℚ
  gold_price : ℚ
  grams_bought : ℚ
  cumulative_grams : ℚ
  cumulative_investment : ℚ
deriving DecidableEq

/-- The `for month in range(duration_months)` loop of lines 102-123, with the
two accumulators `cumulative_grams` and `cumulative_investment` passed
explicitly. -/
def breakdownLoop (monthly_amount : ℚ) (prices : List ℚ) :
    List ℕ → ℚ → ℚ → Except CalcError (List MonthlyRecord)
  | [], _, _ => .ok []
  | month :: rest, cumulative_grams, cumulative_investment =>
    match priceForMonth prices month with
    | none => .error .indexError
    | some gold_price =>
      if gold_price = 0 then .error .zeroDivision
      else
        let grams_bought := monthly_amount / gold_price
        let cg := cumulative_grams + grams_bought
        let ci := cumulative_investment + monthly_amount
        match breakdownLoop monthly_amount prices rest cg ci with
        | .error e => .error e
        | .ok l =>
          .ok (⟨month + 1, monthly_amount, gold_price, pyRound grams_bought 3,
                pyRound cg 3, ci⟩ :: l)

/-- Embedding of `GoldSIPCalculator.calculate_monthly_breakdown` (lines 76-125).
`gold_prices = none` models the `None` default argument. -/
def calculate_monthly_breakdown (monthly_amount : ℚ) (duration_months : ℤ)
    (gold_prices : Option (List ℚ)) : Except CalcError (List MonthlyRecord) :=
  breakdownLoop monthly_amount (effectivePrices gold_prices duration_months.toNat)
    (List.range duration_months.toNat) 0 0

/-- Insert a thousands separator every three digits; the input digit list is
least-significant first. -/
def groupDigits : List Char → List Char
  | a :: b :: c :: d :: rest => a :: b :: c :: ',' :: groupDigits (d :: rest)
  | l => l

/-- Decimal rendering of a natural number with thousands separators, as
produced by Python format specs containing `,`. -/
def natGrouped (n : ℕ) : String :=
  ((groupDigits (Nat.toDigits 10 n).reverse).reverse).asString

/-- Left-pad a digit string with zeros to width `nd`. -/
def padZeros (s : String) (nd : ℕ) : String :=
  (List.replicate (nd - s.length) '0').asString ++ s

/-- Python fixed-point formatting `f"x:.ndf"` of an exact rational, optionally
with thousands grouping (`,`).  Python rounds the value half-to-even at `nd`
decimal places, which is `pyRoundInt (q * 10 ^ nd)`. -/
def formatFixed (grouped : Bool) (q : ℚ) (nd : ℕ) : String :=
  let scaled := pyRoundInt (q * 10 ^ nd)
  let sign := if scaled < 0 then "-" else ""
  let a := scaled.natAbs
  let wholeStr := if grouped then natGrouped (a / 10 ^ nd)
                  else (Nat.toDigits 10 (a / 10 ^ nd)).asString
  sign ++ wholeStr ++ "." ++ padZeros (toString (a % 10 ^ nd)) nd

/-- Embedding of `GoldSIPCalculator.format_currency` (lines 148-150). -/
def format_currency (amount : ℚ) : String :=
  "₹" ++ formatFixed true amount 2

/-- Embedding of `GoldSIPCalculator.format_weight` (lines 152-154). -/
def format_weight (grams : ℚ) : String :=
  formatFixed false grams 3 ++ " grams"

/-- The ungrouped two-decimal rendering used inline in the summary template
for the percentage and CAGR figures. -/
def formatPct (q : ℚ) : String :=
  formatFixed false q 2

/-- The closing line chosen at line 187 when `profit_loss > 0`. -/
def profitClosingLine : String :=
  "🎉 Congratulations! Your investment is in profit."

/-- The closing line chosen at line 187 when `profit_loss <= 0`. -/
def lossClosingLine : String :=
  "📉 Your investment is currently at a loss, but gold is a long-term investment."

/-- The fixed part of the summary template (lines 167-185), after the
`.strip()` at line 190.  The `cagr` figure is formatted from the separately
passed argument (see the module docstring). -/
def summaryBody (r : SipResult) (cagr : ℚ) : String :=
  "🏆 **Gold SIP Investment Summary**\n\n💰 **Investment Details:**\n• Monthly SIP: "
  ++ format_currency r.monthly_amount
  ++ "\n• Duration: " ++ toString r.duration_months ++ " months\n• Total Invested: "
  ++ format_currency r.total_investment
  ++ "\n\n📊 **Gold Purchase:**\n• Average Gold Price: "
  ++ format_currency r.average_gold_price ++ "/gram\n• Total Gold Purchased: "
  ++ format_weight r.total_grams
  ++ "\n\n💎 **Current Status:**\n• Current Gold Price: "
  ++ format_currency r.current_gold_price ++ "/gram\n• Current Value: "
  ++ format_currency r.current_value
  ++ "\n\n📈 **Returns:**\n• Profit/Loss: " ++ format_currency r.profit_loss
  ++ " (" ++ formatPct r.profit_loss_percentage ++ "%)\n• CAGR: "
  ++ formatPct cagr ++ "% per annum"

/-- Embedding of `GoldSIPCalculator.generate_summary_text` (lines 156-190): the template
body followed by the sign-selected closing line of line 187. -/
def generate_summary_text (r : SipResult) (cagr : ℚ) : String :=
  summaryBody r cagr ++ "\n\n" ++
    (if r.profit_loss > 0 then profitClosingLine else lossClosingLine)

theorem defaultGoldPrices_length (n : ℕ) : (defaultGoldPrices n).length = n := by
  unfold defaultGoldPrices
  rw [List.length_map, List.length_range]

theorem defaultGoldPrices_pos (n : ℕ) : ∀ p ∈ defaultGoldPrices n, 0 < p := by
  intro p hp
  simp only [defaultGoldPrices, List.mem_map, List.mem_range] at hp
  obtain ⟨i, _, rfl⟩ := hp
  positivity

theorem defaultGoldPrices_getElem (n k : ℕ) (hk : k < n) :
    (defaultGoldPrices n)[k]? = some (7500 * (1 + 1/100 * (k : ℚ))) := by
  unfold defaultGoldPrices
  rw [List.getElem?_map, List.getElem?_range hk]
  rfl

/-- Under the breakdown preconditions the effective price list (after the
`if not gold_prices:` fallback) is nonempty and positive. -/
theorem effectivePrices_spec (gps : Option (List ℚ)) (n : ℕ) (hn : 0 < n)
    (hpos : ∀ ps ∈ gps, ∀ p ∈ ps, 0 < p) :
    effectivePrices gps n ≠ [] ∧ ∀ p ∈ effectivePrices gps n, 0 < p := by
  have hdef : defaultGoldPrices n ≠ [] := by
    have := defaultGoldPrices_length n
    intro hcon
    rw [hcon] at this
    simp at this
    omega
  match gps with
  | none => exact ⟨hdef, defaultGoldPrices_pos n⟩
  | some [] => exact ⟨hdef, defaultGoldPrices_pos n⟩
  | some (q :: qs) =>
    refine ⟨by simp [effectivePrices], ?_⟩
    intro p hp
    exact hpos (q :: qs) rfl p hp

theorem priceForMonth_pos (prices : List ℚ) (hne : prices ≠ [])
    (hpos : ∀ p ∈ prices, 0 < p) (i : ℕ) :
    ∃ p, priceForMonth prices i = some p ∧ 0 < p := by
  unfold priceForMonth
  split_ifs with h
  · refine ⟨prices.get ⟨i, h⟩, ?_, hpos _ (prices.get_mem _ _)⟩
    simp [List.getElem?_eq_getElem h]
  · refine ⟨prices.getLast hne, ?_, hpos _ (List.getLast_mem hne)⟩
    simp [List.getLast?_eq_getLast _ hne]

/-- Main loop invariant of `calculate_monthly_breakdown`: with a nonempty
positive price list and a positive contribution, the loop succeeds, yields one
record per month, fills the per-record fields as lines 110-122 do, gives
`cumulative_investment` its closed form, and keeps both cumulative fields
bounded below by the incoming accumulators and non-decreasing. -/
theorem breakdownLoop_spec (m : ℚ) (prices : List ℚ) (hne : prices ≠ [])
    (hpos : ∀ p ∈ prices, 0 < p) (hm : 0 < m) :
    ∀ (months : List ℕ) (cg ci : ℚ),
      ∃ l, breakdownLoop m prices months cg ci = .ok l ∧
        l.length = months.length ∧
        (∀ (k i : ℕ) (r : MonthlyRecord), months[k]? = some i → l[k]? = some r →
          r.month = i + 1 ∧ r.investment_amount = m ∧
          priceForMonth prices i = some r.gold_price ∧
          r.grams_bought = pyRound (m / r.gold_price) 3) ∧
        (∀ (k : ℕ) (r : MonthlyRecord), l[k]? = some r →
          r.cumulative_investment = ci + m * (k + 1)) ∧
        (∀ (k : ℕ) (r : MonthlyRecord), l[k]? = some r →
          pyRound cg 3 ≤ r.cumulative_grams) ∧
        (∀ (j k : ℕ) (rj rk : MonthlyRecord), j ≤ k → l[j]? = some rj →
          l[k]? = some rk → rj.cumulative_grams ≤ rk.cumulative_grams) := by
  intro months
  induction months with
  | nil =>
    intro cg ci
    exact ⟨[], rfl, rfl, by intro k i r h; simp at h, by intro k r h; simp at h,
      by intro k r h; simp at h, by intro j k rj rk _ h; simp at h⟩
  | cons i rest ih =>
    intro cg ci
    obtain ⟨gp, hgp, hgppos⟩ := priceForMonth_pos prices hne hpos i
    have hstep : cg ≤ cg + m / gp := by
      have : 0 < m / gp := div_pos hm hgppos
      linarith
    obtain ⟨l, hl, hlen, hfields, hci, hlb, hmono⟩ := ih (cg + m / gp) (ci + m)
    refine ⟨⟨i + 1, m, gp, pyRound (m / gp) 3, pyRound (cg + m / gp) 3, ci + m⟩ :: l,
      ?_, ?_, ?_, ?_, ?_, ?_⟩
    · simp [breakdownLoop, hgp, hgppos.ne', hl]
    · simp [hlen]
    · intro k j r hj hr
      cases k with
      | zero =>
        simp only [List.getElem?_cons_zero, Option.some.injEq] at hj hr
        subst hj
        subst hr
        exact ⟨rfl, rfl, hgp, rfl⟩
      | succ k =>
        simp only [List.getElem?_cons_succ] at hj hr
        exact hfields k j r hj hr
    · intro k r hr
      cases k with
      | zero =>
        simp only [List.getElem?_cons_zero, Option.some.injEq] at hr
        subst hr
        push_cast
        ring
      | succ k =>
        simp only [List.getElem?_cons_succ] at hr
        have := hci k r hr
        rw [this]
        push_cast
        ring
    · intro k r hr
      cases k with
      | zero =>
        simp only [List.getElem?_cons_zero, Option.some.injEq] at hr
        subst hr
        exact pyRound_mono 3 hstep
      | succ k =>
        simp only [List.getElem?_cons_succ] at hr
        exact le_trans (pyRound_mono 3 hstep) (hlb k r hr)
    · intro j k rj rk hjk hj hk
      cases j with
      | zero =>
        cases k with
        | zero =>
          simp only [List.getElem?_cons_zero, Option.some.injEq] at hj hk
          subst hj
          subst hk
          exact le_refl _
        | succ k =>
          simp only [List.getElem?_cons_zero, Option.some.injEq] at hj
          simp only [List.getElem?_cons_succ] at hk
          subst hj
          exact hlb k rk hk
      | succ j =>
        cases k with
        | zero => omega
        | succ k =>
          simp only [List.getElem?_cons_succ] at hj hk
          exact hmono j k rj rk (by omega) hj hk

theorem getElem?_some_lt {α : Type} {l : List α} {k : ℕ} {a : α}
    (h : l[k]? = some a) : k < l.length := by
  by_contra hcon
  rw [List.getElem?_eq_none (by omega)] at h
  cases h

/-- Claim C1: for `monthly_amount = 10000`, `duration_months = 24`,
`average_price = 8000`, `current_price = 10500`, `calculate_sip_returns`
returns `total_investment = 240000`, `total_grams = 30.0`,
`current_value = 315000.00`, `profit_loss = 75000.00` and
`profit_loss_percentage = 31.25`, following the uniform-average algorithm. -/
theorem c1_scenario1 :
    calculate_sip_returns 10000 24 8000 10500 =
      .ok ⟨10000, 24, 240000, 8000, 10500, 30, 315000, 75000, 3125/100⟩ := by
  norm_num [calculate_sip_returns, total_investment_calc, total_grams_calc,
    years_calc, pyRound, pyRoundInt]

/-- Claim C2, counterexample: `calculate_sip_returns` performs no input
validation.  At `monthly_amount = -100` — which violates the claimed
precondition `monthly_amount > 0` — the operation does not fail with an
`InvalidParameter` error; it runs the whole computation and returns an
ordinary result. -/
theorem c2_counterexample :
    calculate_sip_returns (-100) 12 8000 10500 =
      .ok ⟨-100, 12, -1200, 8000, 10500, -3/20, -1575, -375, 3125/100⟩ := by
  norm_num [calculate_sip_returns, total_investment_calc, total_grams_calc,
    years_calc, pyRound, pyRoundInt]

/-- Claim C2, amended: the aggregate-return operation performs no parameter
validation and never fails with `InvalidParameter`.  Whenever
`average_gold_price ≠ 0`, `monthly_amount * duration_months ≠ 0` and the
CAGR base `current_value / total_investment` is non-negative — as at the
counterexample input, where `monthly_amount = -100` violates the claimed
precondition yet the base is `1.3125` — it returns an ordinarily computed
result with no error of any kind.  (Its actual failures, never
`InvalidParameter`, are the zero divisions at lines 45 and 52 and the
line-71 `TypeError` on a negative CAGR base with fractional exponent.) -/
theorem c2_no_validation (m : ℚ) (d : ℤ) (avg cp : ℚ)
    (havg : avg ≠ 0) (hti : m * (d : ℚ) ≠ 0)
    (hbase : 0 ≤ current_value_calc m avg cp d / total_investment_calc m d) :
    (calculate_sip_returns m d avg cp).isOk = true := by
  have hti' : total_investment_calc m d ≠ 0 := hti
  have hcond : ¬ (0 < years_calc d ∧
      total_grams_calc m avg d * cp / total_investment_calc m d < 0 ∧
      ¬ ((d : ℤ) ∣ 12)) :=
    fun h => absurd h.2.1 (not_lt.mpr hbase)
  simp [calculate_sip_returns, havg, hti', hcond, Except.isOk, Except.toBool]

theorem c2_no_validation_witness :
    ((8000 : ℚ) ≠ 0) ∧ ((-100 : ℚ) * ((12 : ℤ) : ℚ) ≠ 0) ∧
    (0 : ℚ) ≤ current_value_calc (-100) 8000 10500 12 / total_investment_calc (-100) 12 ∧
    (calculate_sip_returns (-100) 12 8000 10500).isOk = true :=
  ⟨by norm_num, by norm_num,
    by norm_num [current_value_calc, total_grams_calc, total_investment_calc],
    c2_no_validation (-100) 12 8000 10500 (by norm_num) (by norm_num)
      (by norm_num [current_value_calc, total_grams_calc, total_investment_calc])⟩

/-- Claim C6: for every valid input the returned record satisfies
`total_investment = monthly_amount * duration_months` exactly, and its
`total_grams`, `current_value` and `profit_loss` fields are exactly the
documented roundings (weight 3 decimals, money 2 decimals) of quantities
obeying `current_value = total_weight * current_gold_price` and
`profit_loss = current_value - total_investment` exactly. -/
theorem c6_result_identities (m : ℚ) (d : ℤ) (avg cp : ℚ)
    (hm : 0 < m) (hd : 1 ≤ d) (havg : 0 < avg) (hcp : 0 < cp) :
    ∃ r, calculate_sip_returns m d avg cp = .ok r ∧
      r.total_investment = m * (d : ℚ) ∧
      r.total_grams = pyRound (total_grams_calc m avg d) 3 ∧
      r.current_value = pyRound (current_value_calc m avg cp d) 2 ∧
      r.profit_loss =
        pyRound (current_value_calc m avg cp d - total_investment_calc m d) 2 ∧
      current_value_calc m avg cp d = total_grams_calc m avg d * cp ∧
      total_investment_calc m d = m * (d : ℚ) := by
  have havg' : avg ≠ 0 := havg.ne'
  have hdq : (0 : ℚ) < (d : ℚ) := by exact_mod_cast lt_of_lt_of_le Int.zero_lt_one hd
  have hti0 : (0 : ℚ) < total_investment_calc m d := mul_pos hm hdq
  have hti : total_investment_calc m d ≠ 0 := hti0.ne'
  have hcv0 : (0 : ℚ) < total_grams_calc m avg d * cp :=
    mul_pos (mul_pos (div_pos hm havg) hdq) hcp
  have hcond : ¬ (0 < years_calc d ∧
      total_grams_calc m avg d * cp / total_investment_calc m d < 0 ∧
      ¬ ((d : ℤ) ∣ 12)) :=
    fun h => absurd h.2.1 (not_lt.mpr (div_pos hcv0 hti0).le)
  simp only [calculate_sip_returns, if_neg havg', if_neg hti, if_neg hcond]
  exact ⟨_, rfl, rfl, rfl, rfl, rfl, rfl, rfl⟩

theorem c6_result_identities_witness :
    (0 : ℚ) < 10000 ∧ (1 : ℤ) ≤ 24 ∧ (0 : ℚ) < 8000 ∧ (0 : ℚ) < 10500 ∧
    (∃ r, calculate_sip_returns 10000 24 8000 10500 = .ok r ∧
      r.total_investment = 10000 * ((24 : ℤ) : ℚ) ∧
      r.total_grams = pyRound (total_grams_calc 10000 8000 24) 3 ∧
      r.current_value = pyRound (current_value_calc 10000 8000 10500 24) 2 ∧
      r.profit_loss =
        pyRound (current_value_calc 10000 8000 10500 24 -
          total_investment_calc 10000 24) 2 ∧
      current_value_calc 10000 8000 10500 24 = total_grams_calc 10000 8000 24 * 10500 ∧
      total_investment_calc 10000 24 = 10000 * ((24 : ℤ) : ℚ)) :=
  ⟨by norm_num, by norm_num, by norm_num, by norm_num,
    c6_result_identities 10000 24 8000 10500 (by norm_num) (by norm_num)
      (by norm_num) (by norm_num)⟩

/-- Claim C9: under the preconditions, every division and the exponentiation
of the CAGR step are well-defined: the divisors `average_gold_price`,
`total_investment` and `years` are nonzero, the base
`current_value / total_investment` of the fractional power is strictly
positive, and since `years > 0` the `years == 0` fallback branch
(`cagr = 0`) is unreachable. -/
theorem c9_domain_safety (m : ℚ) (d : ℤ) (avg cp : ℚ)
    (hm : 0 < m) (hd : 1 ≤ d) (havg : 0 < avg) (hcp : 0 < cp) :
    avg ≠ 0 ∧ total_investment_calc m d ≠ 0 ∧ 0 < years_calc d ∧
    years_calc d ≠ 0 ∧
    0 < current_value_calc m avg cp d / total_investment_calc m d := by
  have hdq : (0 : ℚ) < (d : ℚ) := by exact_mod_cast lt_of_lt_of_le Int.zero_lt_one hd
  have hti : 0 < total_investment_calc m d := mul_pos hm hdq
  have hyears : 0 < years_calc d := div_pos hdq (by norm_num)
  have hcv : 0 < current_value_calc m avg cp d :=
    mul_pos (mul_pos (div_pos hm havg) hdq) hcp
  exact ⟨havg.ne', hti.ne', hyears, hyears.ne', div_pos hcv hti⟩

theorem c9_domain_safety_witness :
    (0 : ℚ) < 10000 ∧ (1 : ℤ) ≤ 24 ∧ (0 : ℚ) < 8000 ∧ (0 : ℚ) < 10500 ∧
    ((8000 : ℚ) ≠ 0 ∧ total_investment_calc 10000 24 ≠ 0 ∧ 0 < years_calc 24 ∧
     years_calc 24 ≠ 0 ∧
     0 < current_value_calc 10000 8000 10500 24 / total_investment_calc 10000 24) :=
  ⟨by norm_num, by norm_num, by norm_num, by norm_num,
    c9_domain_safety 10000 24 8000 10500 (by norm_num) (by norm_num)
      (by norm_num) (by norm_num)⟩

/-- Claim C7, counterexample: the returned `current_value` and `profit_loss`
are rounded to 2 decimal places, so a strictly larger `current_gold_price`
need not strictly increase them.  With `monthly_amount = 10000`,
`duration_months = 1`, `average_gold_price = 10000`, raising the current
price from `10500.001` to `10500.002` leaves both returned fields unchanged. -/
theorem c7_counterexample :
    ((10500 : ℚ) + 1/1000 < 10500 + 2/1000) ∧
    (calculate_sip_returns 10000 1 10000 (10500 + 1/1000)).map
        (fun r => (r.current_value, r.profit_loss)) =
      (calculate_sip_returns 10000 1 10000 (10500 + 2/1000)).map
        (fun r => (r.current_value, r.profit_loss)) := by
  constructor
  · norm_num
  · norm_num [calculate_sip_returns, total_investment_calc, total_grams_calc,
      years_calc, pyRound, pyRoundInt, Except.map]

/-- Claim C7, amended: for every valid input (all four scalars positive),
increasing `current_gold_price` with the other inputs fixed strictly
increases the pre-rounding `current_value` and `profit_loss`, and never
decreases (but need not strictly increase, because of the 2-decimal display
rounding) the returned `current_value` and `profit_loss` fields. -/
theorem c7_monotone (m : ℚ) (d : ℤ) (avg cp cp' : ℚ)
    (hm : 0 < m) (hd : 1 ≤ d) (havg : 0 < avg) (hcp : 0 < cp) (hlt : cp < cp') :
    current_value_calc m avg cp d < current_value_calc m avg cp' d ∧
    current_value_calc m avg cp d - total_investment_calc m d <
      current_value_calc m avg cp' d - total_investment_calc m d ∧
    ∃ r r', calculate_sip_returns m d avg cp = .ok r ∧
      calculate_sip_returns m d avg cp' = .ok r' ∧
      r.current_value ≤ r'.current_value ∧ r.profit_loss ≤ r'.profit_loss := by
  have havg' : avg ≠ 0 := havg.ne'
  have hdq : (0 : ℚ) < (d : ℚ) := by exact_mod_cast lt_of_lt_of_le Int.zero_lt_one hd
  have hti0 : (0 : ℚ) < total_investment_calc m d := mul_pos hm hdq
  have hti : total_investment_calc m d ≠ 0 := hti0.ne'
  have htg : 0 < total_grams_calc m avg d := mul_pos (div_pos hm havg) hdq
  have hcond : ¬ (0 < years_calc d ∧
      total_grams_calc m avg d * cp / total_investment_calc m d < 0 ∧
      ¬ ((d : ℤ) ∣ 12)) :=
    fun h => absurd h.2.1 (not_lt.mpr (div_pos (mul_pos htg hcp) hti0).le)
  have hcond' : ¬ (0 < years_calc d ∧
      total_grams_calc m avg d * cp' / total_investment_calc m d < 0 ∧
      ¬ ((d : ℤ) ∣ 12)) :=
    fun h => absurd h.2.1 (not_lt.mpr (div_pos (mul_pos htg (hcp.trans hlt)) hti0).le)
  have hcv : current_value_calc m avg cp d < current_value_calc m avg cp' d := by
    unfold current_value_calc
    exact mul_lt_mul_of_pos_left hlt htg
  refine ⟨hcv, by linarith, ?_⟩
  simp only [calculate_sip_returns, if_neg havg', if_neg hti, if_neg hcond, if_neg hcond']
  refine ⟨_, _, rfl, rfl, ?_, ?_⟩
  · exact pyRound_mono 2 hcv.le
  · exact pyRound_mono 2 (by unfold current_value_calc at hcv; linarith)

theorem c7_monotone_witness :
    (0 : ℚ) < 10000 ∧ (1 : ℤ) ≤ 24 ∧ (0 : ℚ) < 8000 ∧ (0 : ℚ) < 10500 ∧
    ((10500 : ℚ) < 10600) ∧
    (current_value_calc 10000 8000 10500 24 < current_value_calc 10000 8000 10600 24 ∧
     current_value_calc 10000 8000 10500 24 - total_investment_calc 10000 24 <
       current_value_calc 10000 8000 10600 24 - total_investment_calc 10000 24 ∧
     ∃ r r', calculate_sip_returns 10000 24 8000 10500 = .ok r ∧
       calculate_sip_returns 10000 24 8000 10600 = .ok r' ∧
       r.current_value ≤ r'.current_value ∧ r.profit_loss ≤ r'.profit_loss) :=
  ⟨by norm_num, by norm_num, by norm_num, by norm_num, by norm_num,
    c7_monotone 10000 24 8000 10500 10600 (by norm_num) (by norm_num)
      (by norm_num) (by norm_num) (by norm_num)⟩

/-- Claim C8: `generate_summary_text` appends exactly one of two closing
lines, selected by the sign of `profit_loss`: the congratulatory line when
`profit_loss` is strictly positive and the cautionary line when it is zero or
negative; beyond the interpolated body this is the only computation. -/
theorem c8_closing_line (r : SipResult) (cagr : ℚ) :
    profitClosingLine ≠ lossClosingLine ∧
    ∃ closing, generate_summary_text r cagr = summaryBody r cagr ++ "\n\n" ++ closing ∧
      ((0 < r.profit_loss ∧ closing = profitClosingLine) ∨
       (r.profit_loss ≤ 0 ∧ closing = lossClosingLine)) := by
  refine ⟨by decide, ?_⟩
  by_cases h : 0 < r.profit_loss
  · exact ⟨profitClosingLine, by rw [generate_summary_text, if_pos h], Or.inl ⟨h, rfl⟩⟩
  · exact ⟨lossClosingLine, by rw [generate_summary_text, if_neg h],
      Or.inr ⟨le_of_not_lt h, rfl⟩⟩

/-- Claim C3: for every valid input, `calculate_monthly_breakdown` returns an
ordered sequence of exactly `duration_months` records whose cumulative fields
are non-decreasing, and whose record for month `N` (1-based) carries
`cumulative_investment = monthly_amount * N`. -/
theorem c3_breakdown_invariants (m : ℚ) (d : ℤ) (gps : Option (List ℚ))
    (hm : 0 < m) (hd : 1 ≤ d)
    (hpos : ∀ ps ∈ gps, ∀ p ∈ ps, 0 < p) :
    ∃ l, calculate_monthly_breakdown m d gps = .ok l ∧
      (l.length : ℤ) = d ∧
      (∀ (j k : ℕ) (rj rk : MonthlyRecord), j ≤ k → l[j]? = some rj →
        l[k]? = some rk → rj.cumulative_grams ≤ rk.cumulative_grams ∧
          rj.cumulative_investment ≤ rk.cumulative_investment) ∧
      (∀ (k : ℕ) (r : MonthlyRecord), l[k]? = some r →
        r.month = k + 1 ∧ r.cumulative_investment = m * ((k : ℚ) + 1)) := by
  have hn : 0 < d.toNat := by omega
  obtain ⟨hne, hppos⟩ := effectivePrices_spec gps d.toNat hn hpos
  obtain ⟨l, hl, hlen, hfields, hci, hlb, hmono⟩ :=
    breakdownLoop_spec m _ hne hppos hm (List.range d.toNat) 0 0
  rw [List.length_range] at hlen
  refine ⟨l, hl, by rw [hlen]; omega, ?_, ?_⟩
  · intro j k rj rk hjk hj hk
    refine ⟨hmono j k rj rk hjk hj hk, ?_⟩
    rw [hci j rj hj, hci k rk hk]
    have hq : (j : ℚ) ≤ (k : ℚ) := by exact_mod_cast hjk
    nlinarith
  · intro k r hr
    have hkl : k < d.toNat := by
      have := getElem?_some_lt hr
      omega
    obtain ⟨h1, _, _, _⟩ := hfields k k r (List.getElem?_range hkl) hr
    refine ⟨h1, ?_⟩
    rw [hci k r hr]
    ring

theorem c3_breakdown_invariants_witness :
    (0 : ℚ) < 5000 ∧ (1 : ℤ) ≤ 6 ∧
    (∀ ps ∈ (none : Option (List ℚ)), ∀ p ∈ ps, 0 < p) ∧
    (∃ l, calculate_monthly_breakdown 5000 6 none = .ok l ∧
      (l.length : ℤ) = 6 ∧
      (∀ (j k : ℕ) (rj rk : MonthlyRecord), j ≤ k → l[j]? = some rj →
        l[k]? = some rk → rj.cumulative_grams ≤ rk.cumulative_grams ∧
          rj.cumulative_investment ≤ rk.cumulative_investment) ∧
      (∀ (k : ℕ) (r : MonthlyRecord), l[k]? = some r →
        r.month = k + 1 ∧ r.cumulative_investment = 5000 * ((k : ℚ) + 1))) :=
  ⟨by norm_num, by norm_num, by simp,
    c3_breakdown_invariants 5000 6 none (by norm_num) (by norm_num) (by simp)⟩

/-- Claim C4: with no price series supplied the breakdown synthesizes
`price[i] = 7500 * (1 + 0.01 * i)`; in particular, for
`monthly_amount = 5000` and `duration_months = 6` the breakdown has exactly
6 records, month 1 has price 7500 and `weight_bought = 0.667` (3 dp), and
month 6 has price 7875. -/
theorem c4_default_series (m : ℚ) (d : ℤ) (hm : 0 < m) (hd : 1 ≤ d) :
    (∃ l, calculate_monthly_breakdown m d none = .ok l ∧ (l.length : ℤ) = d ∧
      ∀ (k : ℕ) (r : MonthlyRecord), l[k]? = some r →
        r.gold_price = 7500 * (1 + 1/100 * (k : ℚ))) ∧
    (calculate_monthly_breakdown 5000 6 none).map (fun l =>
        (l.length, l[0]?.map (fun r => (r.gold_price, r.grams_bought)),
         l[5]?.map MonthlyRecord.gold_price)) =
      .ok (6, some (7500, 667/1000), some 7875) := by
  constructor
  · have hn : 0 < d.toNat := by omega
    obtain ⟨hne, hppos⟩ :=
      effectivePrices_spec none d.toNat hn (by simp)
    obtain ⟨l, hl, hlen, hfields, _, _, _⟩ :=
      breakdownLoop_spec m _ hne hppos hm (List.range d.toNat) 0 0
    rw [List.length_range] at hlen
    refine ⟨l, hl, by rw [hlen]; omega, ?_⟩
    intro k r hr
    have hkl : k < d.toNat := by
      have := getElem?_some_lt hr
      omega
    obtain ⟨_, _, h3, _⟩ := hfields k k r (List.getElem?_range hkl) hr
    have hpf : priceForMonth (effectivePrices none d.toNat) k =
        some (7500 * (1 + 1/100 * (k : ℚ))) := by
      unfold priceForMonth
      rw [if_pos (by rw [show (effectivePrices none d.toNat).length = d.toNat from
        defaultGoldPrices_length d.toNat]; exact hkl)]
      exact defaultGoldPrices_getElem d.toNat k hkl
    rw [hpf] at h3
    exact (Option.some.injEq _ _).mp h3.symm
  · norm_num [calculate_monthly_breakdown, effectivePrices, defaultGoldPrices,
      breakdownLoop, priceForMonth, pyRound, pyRoundInt, Except.map,
      List.range_succ]

theorem c4_default_series_witness :
    (0 : ℚ) < 5000 ∧ (1 : ℤ) ≤ 6 ∧
    ((∃ l, calculate_monthly_breakdown 5000 6 none = .ok l ∧ (l.length : ℤ) = 6 ∧
      ∀ (k : ℕ) (r : MonthlyRecord), l[k]? = some r →
        r.gold_price = 7500 * (1 + 1/100 * (k : ℚ))) ∧
    (calculate_monthly_breakdown 5000 6 none).map (fun l =>
        (l.length, l[0]?.map (fun r => (r.gold_price, r.grams_bought)),
         l[5]?.map MonthlyRecord.gold_price)) =
      .ok (6, some (7500, 667/1000), some 7875)) :=
  ⟨by norm_num, by norm_num, c4_default_series 5000 6 (by norm_num) (by norm_num)⟩

/-- Claim C5: a supplied non-empty price series shorter than
`duration_months` is not an error: the breakdown still produces one record
per month, and every month at an index past the end of the series is priced
at the last element of the series. -/
theorem c5_short_series_fallback (m : ℚ) (d : ℤ) (ps : List ℚ) (hm : 0 < m)
    (hd : 1 ≤ d) (hne : ps ≠ []) (hshort : (ps.length : ℤ) < d)
    (hpos : ∀ p ∈ ps, 0 < p) :
    ∃ l, calculate_monthly_breakdown m d (some ps) = .ok l ∧ (l.length : ℤ) = d ∧
      ∀ (k : ℕ) (r : MonthlyRecord), l[k]? = some r → ps.length ≤ k →
        r.gold_price = ps.getLast hne := by
  have heff : effectivePrices (some ps) d.toNat = ps := by
    cases ps with
    | nil => exact absurd rfl hne
    | cons q qs => rfl
  obtain ⟨l, hl, hlen, hfields, _, _, _⟩ :=
    breakdownLoop_spec m (effectivePrices (some ps) d.toNat)
      (by rw [heff]; exact hne) (by rw [heff]; exact hpos) hm
      (List.range d.toNat) 0 0
  rw [List.length_range] at hlen
  refine ⟨l, hl, by rw [hlen]; omega, ?_⟩
  intro k r hr hk
  have hkl : k < d.toNat := by
    have := getElem?_some_lt hr
    omega
  obtain ⟨_, _, h3, _⟩ := hfields k k r (List.getElem?_range hkl) hr
  rw [heff] at h3
  unfold priceForMonth at h3
  rw [if_neg (by omega), List.getLast?_eq_getLast ps hne] at h3
  exact (Option.some.injEq _ _).mp h3.symm

theorem c5_short_series_fallback_witness :
    (0 : ℚ) < 100 ∧ (1 : ℤ) ≤ 3 ∧ ([(50 : ℚ)] ≠ []) ∧
    ((([(50 : ℚ)].length : ℤ)) < 3) ∧ (∀ p ∈ [(50 : ℚ)], 0 < p) ∧
    (∃ l, calculate_monthly_breakdown 100 3 (some [(50 : ℚ)]) = .ok l ∧
      (l.length : ℤ) = 3 ∧
      ∀ (k : ℕ) (r : MonthlyRecord), l[k]? = some r → [(50 : ℚ)].length ≤ k →
        r.gold_price = [(50 : ℚ)].getLast (by simp)) :=
  ⟨by norm_num, by norm_num, by simp, by simp, by norm_num,
    c5_short_series_fallback 100 3 [(50 : ℚ)] (by norm_num) (by norm_num)
      (by simp) (by simp) (by norm_num)⟩

/-- Claim C10: an explicitly supplied empty price series behaves exactly like
an omitted one — the Python check `if not gold_prices:` treats `[]` and `None` alike,
so the default series `price[i] = 7500 * (1 + 0.01 * i)` is synthesized and
the empty list is never indexed. -/
theorem c10_empty_series (m : ℚ) (d : ℤ) :
    calculate_monthly_breakdown m d (some []) = calculate_monthly_breakdown m d none ∧
    effectivePrices (some []) d.toNat = defaultGoldPrices d.toNat :=
  ⟨rfl, rfl⟩

end GoldSip
